import Mathlib

/-!
Shallow embedding of `src/spbuilder.py` (X-Plane scenery_packs.ini builder).

The algorithmic core of the program is pure string/list manipulation:
reading category files into entry lists, collision-filtering and sorting the
custom-scenery scan, the merge-mode / zz-at-end ordering policy, and the
rendering of the final `scenery_packs.ini` text.  File reads are modelled by a
function `String → Option (List String)` mapping a path to the lines of the
file (absent file = `none`); Python exceptions are modelled with
`Except`/`Option`.

Python string primitives used by the source are embedded structurally over
`List Char` so that every definition kernel-evaluates:
  - `os.path.basename`  (POSIX: suffix after the last slash)  → `basename`
  - `str.strip()` + `str.rstrip((c : '/'))` on a line         → `stripLine`
  - `sorted` on strings (code-point lexicographic)            → `pysorted`
  - `str.replace` with the one-char pattern backslash→slash   → `pyReplaceBackslash`
  - `str.startswith(t)`                                       → `pyStartsWith`
  - `(sep : newline).join`                                    → `joinNL`
-/

/-- Option-name constant `OPT_SCENERY_LIBS = 'libraries'` from the source. -/
def OPT_SCENERY_LIBS : String := "libraries"

/-- Option-name constant `OPT_SCENERY_MESHES = 'base'` from the source. -/
def OPT_SCENERY_MESHES : String := "base"

/-- Option-name constant `OPT_SCENERY_DEFAULT_AIRPORTS = 'default_airports'`. -/
def OPT_SCENERY_DEFAULT_AIRPORTS : String := "default_airports"

/-- Option-name constant `OPT_SCENERY_CUSTOM_AIRPORTS = 'custom_airports'`. -/
def OPT_SCENERY_CUSTOM_AIRPORTS : String := "custom_airports"

/-- Option-name constant `OPT_SCENERY_TOP = 'top'` from the source. -/
def OPT_SCENERY_TOP : String := "top"

/-- The fixed 4-line header block `HEADER` of the source (format identifier,
version number, section marker, blank line). -/
def HEADER : String := "I\n1000 Version\nSCENERY\n\n"

/-- Characters treated as whitespace by Python's `str.strip()`. -/
def isPySpace (c : Char) : Bool :=
  c = ' ' || c = '\t' || c = '\n' || c = '\r' || c = '\x0B' || c = '\x0C'

/-- Python `str.strip()` on the character list: drop leading and trailing
whitespace. -/
def pyStripChars (cs : List Char) : List Char :=
  ((cs.dropWhile isPySpace).reverse.dropWhile isPySpace).reverse

/-- The per-line normalization `line.strip().rstrip((c : '/'))` of
`read_scenery_list` (src/spbuilder.py line 79): strip whitespace, then drop
trailing slashes. -/
def stripLine (s : String) : String :=
  ⟨((pyStripChars s.data).reverse.dropWhile (fun c => c = '/')).reverse⟩

/-- POSIX `os.path.basename`: the suffix of the string after the last slash
(the whole string when it has no slash). -/
def basename (s : String) : String :=
  ⟨(s.data.reverse.takeWhile (fun c => c ≠ '/')).reverse⟩

/-- Python `s.startswith(t)` for plain string arguments. -/
def pyStartsWith (s t : String) : Bool :=
  t.data.isPrefixOf s.data

/-- The zz-classification test of src/spbuilder.py line 179:
`os.path.basename(s).startswith((p1 : 'z', p2 : '-z'))` — true when the base
name starts with either pattern. -/
def isZZ (s : String) : Bool :=
  pyStartsWith (basename s) "z" || pyStartsWith (basename s) "-z"

/-- Code-point lexicographic `<` on character lists, as Python compares
strings. -/
def charListLt : List Char → List Char → Bool
  | [], [] => false
  | [], _ :: _ => true
  | _ :: _, [] => false
  | a :: as, b :: bs => a < b || (a = b && charListLt as bs)

/-- Python string comparison `a <= b` (code-point lexicographic). -/
def pyLe (a b : String) : Bool :=
  a = b || charListLt a.data b.data

/-- Insert a string into an ascending list, keeping it ascending. -/
def insertSorted (x : String) : List String → List String
  | [] => [x]
  | y :: ys => if pyLe x y then x :: y :: ys else y :: insertSorted x ys

/-- Python `sorted` on a list of strings: ascending code-point order.  On
strings any correct ascending sort produces the same list as CPython's
`sorted` (equal keys are identical strings), so a structural insertion sort
is an exact model. -/
def pysorted (l : List String) : List String :=
  l.foldr insertSorted []

/-- Python `s.replace(old, new)` for the one-character pattern
backslash → slash used at src/spbuilder.py line 187. -/
def pyReplaceBackslash (s : String) : String :=
  ⟨s.data.map (fun c => if c = '\\' then '/' else c)⟩

/-- Python `(sep : newline).join(lines)` from src/spbuilder.py line 191. -/
def joinNL : List String → String
  | [] => ""
  | [s] => s
  | s :: ss => s ++ "\n" ++ joinNL ss

/-- Errors the modelled program can raise: `FileNotFoundError` from `open` on
an absent file, `IndexError` from `s[0]` on an empty entry string. -/
inductive SpbError where
  | fileNotFound
  | indexError
deriving DecidableEq, Repr

/-- `read_scenery_list` (src/spbuilder.py lines 70-81): open the file at
`path` (raising `FileNotFoundError` when absent) and map each line through
`line.strip().rstrip((c : '/'))`.  The filesystem is `fs : path ↦ lines`. -/
def read_scenery_list (fs : String → Option (List String)) (path : String) :
    Except SpbError (List String) :=
  match fs path with
  | none => .error .fileNotFound
  | some lines => .ok (lines.map stripLine)

/-- The fixed category iteration order of `read_scenery_db`
(src/spbuilder.py lines 93-99): top, custom_airports, default_airports,
libraries, base. -/
def SCENERY_TYPES : List String :=
  [OPT_SCENERY_TOP, OPT_SCENERY_CUSTOM_AIRPORTS, OPT_SCENERY_DEFAULT_AIRPORTS,
   OPT_SCENERY_LIBS, OPT_SCENERY_MESHES]

/-- The accumulation loop of `read_scenery_db`: for each category option in
order, if the option is configured, read its file and extend the result;
otherwise skip it.  The first missing file aborts with the error. -/
def readCategories (cfg : String → Option String)
    (fs : String → Option (List String)) :
    List String → Except SpbError (List String)
  | [] => .ok []
  | t :: ts =>
    match cfg t with
    | none => readCategories cfg fs ts
    | some p =>
      match read_scenery_list fs p with
      | .error e => .error e
      | .ok entries =>
        match readCategories cfg fs ts with
        | .error e => .error e
        | .ok rest => .ok (entries ++ rest)

/-- `read_scenery_db` (src/spbuilder.py lines 84-105): concatenate the
configured category files in the fixed `SCENERY_TYPES` order.  `cfg` is the
`[scenery]` config section (option name ↦ configured file path). -/
def read_scenery_db (cfg : String → Option String)
    (fs : String → Option (List String)) : Except SpbError (List String) :=
  readCategories cfg fs SCENERY_TYPES

/-- `dscen_base` (src/spbuilder.py line 150): the base names of the DB
entries (the Python frozenset is modelled as a list with membership). -/
def dscen_base (dscen : List String) : List String :=
  dscen.map basename

/-- The collision filter and sort of `read_all_sceneries`
(src/spbuilder.py lines 152-154): keep the scanned entries whose base name is
not a DB base name, sorted ascending. -/
def filtered_live (dscen cscen : List String) : List String :=
  pysorted (cscen.filter (fun x => !((dscen_base dscen).contains (basename x))))

/-- The entry-ordering core of `make_scenery_ini`
(src/spbuilder.py lines 173-183): when `zz_at_end`, split off the
zz-classified live entries; concatenate live and DB lists per `merge_mode`
(the live block first exactly when `merge_mode == 'top'`); append the zz
block at the very end. -/
def mergedSceneries (db_sceneries cs_sceneries : List String)
    (merge_mode : String) (zz_at_end : Bool) : List String :=
  let zz_sceneries := if zz_at_end then cs_sceneries.filter (fun s => isZZ s) else []
  let cs2 := if zz_at_end then cs_sceneries.filter (fun s => !(zz_sceneries.contains s))
             else cs_sceneries
  (if merge_mode == "top" then cs2 ++ db_sceneries else db_sceneries ++ cs2)
    ++ zz_sceneries

/-- One line of the rendering comprehension (src/spbuilder.py lines 184-189):
`SCENERY_{mode} {path}` where mode is `PACK` unless the first character is
the disable marker, and path is the (marker-stripped) entry with backslashes
replaced and a trailing slash.  `s[0]` on an empty string raises
`IndexError`, modelled as `none`. -/
def renderLine (s : String) : Option String :=
  match s.data with
  | [] => none
  | c :: rest =>
    some ("SCENERY_" ++ (if c ≠ '-' then "PACK" else "DISABLED") ++ " "
      ++ pyReplaceBackslash (if c ≠ '-' then s else ⟨rest⟩) ++ "/")

/-- The rendering comprehension over the merged list: all lines, or `none`
as soon as one entry is empty. -/
def renderLines : List String → Option (List String)
  | [] => some []
  | s :: ss =>
    match renderLine s, renderLines ss with
    | some l, some ls => some (l :: ls)
    | _, _ => none

/-- `make_scenery_ini` (src/spbuilder.py lines 162-191) restricted to its
pure inputs: the merged entry list rendered to lines, joined with newlines
and prefixed with `HEADER`. -/
def make_scenery_ini (db_sceneries cs_sceneries : List String)
    (merge_mode : String) (zz_at_end : Bool) : Option String :=
  match renderLines (mergedSceneries db_sceneries cs_sceneries merge_mode zz_at_end) with
  | none => none
  | some lines => some (HEADER ++ joinNL lines)

/-- `rebuild_scenery_ini` (src/spbuilder.py lines 210-222) up to the write:
read the DB (propagating a missing-file error), collision-filter and sort the
scanned list `cscen` (as `read_all_sceneries` does), build the file text.
`.ok` carries the exact text that `write_scenery_ini` would write; `.error`
means the write is never reached. -/
def rebuild_scenery_ini (cfg : String → Option String)
    (fs : String → Option (List String)) (cscen : List String)
    (merge_mode : String) (zz_at_end : Bool) : Except SpbError String :=
  match read_scenery_db cfg fs with
  | .error e => .error e
  | .ok dscen =>
    match make_scenery_ini dscen (filtered_live dscen cscen) merge_mode zz_at_end with
    | none => .error .indexError
    | some s => .ok s

/-- Per-category contribution to the DB list (for claim C7): the stripped
lines of the category's configured file, `[]` when the category is not
configured.  (The absent-file case is excluded by claim C7's hypothesis and
is settled by claim C8.) -/
def cat_entries (cfg : String → Option String)
    (fs : String → Option (List String)) (t : String) : List String :=
  match cfg t with
  | none => []
  | some p =>
    match fs p with
    | none => []
    | some lines => lines.map stripLine

/-- Concrete config section used by the C7 witness: two categories
configured, three absent. -/
def cfg7 : String → Option String := fun t =>
  if t = OPT_SCENERY_TOP then some "db/top.txt"
  else if t = OPT_SCENERY_LIBS then some "db/libs.txt"
  else none

/-- Concrete filesystem used by the C7 witness. -/
def fs7 : String → Option (List String) := fun p =>
  if p = "db/top.txt" then some ["top/A/", " top/B "]
  else if p = "db/libs.txt" then some ["libs/C"]
  else none

/-- Concrete config section used by the C8 witness: one category declared,
whose file is absent. -/
def cfg8 : String → Option String := fun t =>
  if t = OPT_SCENERY_LIBS then some "db/libs.txt" else none

/-- Concrete filesystem used by the C8 witness: no file exists. -/
def fs8 : String → Option (List String) := fun _ => none

/-- Concrete config section used by claim C9: only the top category is
configured. -/
def cfg9 : String → Option String := fun t =>
  if t = OPT_SCENERY_TOP then some "db/top.txt" else none

/-- Concrete filesystem used by claim C9: the top category file has a blank
second line, which `read_scenery_list` keeps as an empty entry. -/
def fs9 : String → Option (List String) := fun p =>
  if p = "db/top.txt" then some ["Custom Scenery/X", "   "] else none

/-- Spec-side definition (for the refinement comparison of claim C5): the
spec's base name, the final path component with a leading disable marker
removed. -/
def spec_base_name (s : String) : String :=
  match (basename s).data with
  | '-' :: rest => ⟨rest⟩
  | _ => basename s

/-- Spec-side definition (for the refinement comparison of claim C6): the
spec's rendered line, `SCENERY_PACK <path>/` when the first character of the
entry is not the marker, `SCENERY_DISABLED <path>/` with the marker removed
when it is, backslashes replaced by slashes. -/
def spec_render_line (s : String) : String :=
  match s.data with
  | [] => ""
  | c :: rest =>
    if c = '-' then "SCENERY_DISABLED " ++ pyReplaceBackslash ⟨rest⟩ ++ "/"
    else "SCENERY_PACK " ++ pyReplaceBackslash s ++ "/"

/-!
Helper lemmas about the embedded operations.
-/

/-- List `contains` agrees with membership for strings. -/
lemma contains_iff (l : List String) (x : String) :
    l.contains x = true ↔ x ∈ l := by
  simp [List.contains, List.elem_iff]

/-- Inserting into a sorted list is a permutation of consing. -/
lemma insertSorted_perm (x : String) (l : List String) :
    (insertSorted x l).Perm (x :: l) := by
  induction l with
  | nil => simp [insertSorted]
  | cons y ys ih =>
    unfold insertSorted
    by_cases h : pyLe x y = true
    · simp [h]
    · simp only [h, if_neg, Bool.false_eq_true, not_false_eq_true, ite_false]
      exact (ih.cons y).trans (List.Perm.swap x y ys)

/-- `pysorted` permutes its input. -/
lemma pysorted_perm (l : List String) : (pysorted l).Perm l := by
  induction l with
  | nil => rfl
  | cons a l ih =>
    have h1 : pysorted (a :: l) = insertSorted a (pysorted l) := rfl
    rw [h1]
    exact (insertSorted_perm a (pysorted l)).trans (ih.cons a)

/-- Membership in `pysorted` is membership in the input. -/
lemma mem_pysorted (l : List String) (x : String) :
    x ∈ pysorted l ↔ x ∈ l :=
  (pysorted_perm l).mem_iff

/-- Characterization of the collision-filtered sorted live list: an entry
survives iff it was scanned and its base name is not a DB base name. -/
lemma mem_filtered_live (db raw : List String) (x : String) :
    x ∈ filtered_live db raw ↔ x ∈ raw ∧ basename x ∉ dscen_base db := by
  unfold filtered_live
  rw [mem_pysorted, List.mem_filter]
  simp [contains_iff]

/-- The reassignment of `cs_sceneries` at src/spbuilder.py line 180 (drop
the entries that are in the zz list) is the same as filtering out the
zz-classified entries. -/
lemma zz_filter_eq (cs : List String) :
    cs.filter (fun s => !((cs.filter (fun t => isZZ t)).contains s))
      = cs.filter (fun s => !(isZZ s)) := by
  apply List.filter_congr
  intro x hx
  congr 1
  by_cases h : isZZ x = true
  · rw [h]
    exact (contains_iff _ _).mpr (List.mem_filter.mpr ⟨hx, h⟩)
  · have h' : isZZ x = false := by simpa using h
    rw [h']
    rw [Bool.eq_false_iff]
    intro hc
    exact h (List.mem_filter.mp ((contains_iff _ _).mp hc)).2

/-- Normal form of the merged list when `zz_at_end` is true: the
mode-dependent primary merge followed by the zz block. -/
lemma mergedSceneries_zz (db cs : List String) (mode : String) :
    mergedSceneries db cs mode true
      = (if mode == "top" then cs.filter (fun s => !(isZZ s)) ++ db
         else db ++ cs.filter (fun s => !(isZZ s)))
        ++ cs.filter (fun s => isZZ s) := by
  unfold mergedSceneries
  simp only [if_pos]
  rw [zz_filter_eq]

/-- Normal form of the merged list when `zz_at_end` is false: no zz handling
at all. -/
lemma mergedSceneries_nozz (db cs : List String) (mode : String) :
    mergedSceneries db cs mode false
      = (if mode == "top" then cs ++ db else db ++ cs) := by
  unfold mergedSceneries
  simp

/-!
Claim theorems.
-/

/-- Claim C1, counterexample to the literal statement: with the default
`zz_at_end = true` and merge mode top, the final sequence is not the
collision-filtered sorted live list followed by the DB list — the
zz-classified live entry `-zA` is moved after the DB entries, although the
base names of `D = [D]` and `L = [-zA, A]` are disjoint. -/
theorem merge_literal_counterexample :
    mergedSceneries ["D"] (filtered_live ["D"] ["-zA", "A"]) "top" true
      ≠ filtered_live ["D"] ["-zA", "A"] ++ ["D"] := by
  decide

/-- Claim C1 (amended): for DB and live lists with disjoint base names the
collision filter removes nothing, and the merged sequence is the DB list and
the sorted live list concatenated per merge mode — except that when
`zz_at_end` is true the zz-classified part of the sorted live list is
removed from the live block and appended at the very end of the whole
sequence (after the DB block even in top mode). -/
theorem merge_modes_amended (db raw : List String) (zz : Bool)
    (hdisj : ∀ d ∈ db, ∀ x ∈ raw, basename d ≠ basename x) :
    mergedSceneries db (filtered_live db raw) "bottom" zz
        = (db ++ (if zz then (pysorted raw).filter (fun s => !(isZZ s)) else pysorted raw))
          ++ (if zz then (pysorted raw).filter (fun s => isZZ s) else [])
      ∧ mergedSceneries db (filtered_live db raw) "top" zz
        = ((if zz then (pysorted raw).filter (fun s => !(isZZ s)) else pysorted raw) ++ db)
          ++ (if zz then (pysorted raw).filter (fun s => isZZ s) else []) := by
  have hfl : filtered_live db raw = pysorted raw := by
    unfold filtered_live
    congr 1
    apply List.filter_eq_self.mpr
    intro x hx
    simp only [Bool.not_eq_true']
    rw [Bool.eq_false_iff]
    intro hc
    obtain ⟨d, hd, he⟩ := List.mem_map.mp ((contains_iff _ _).mp hc)
    exact hdisj d hd x hx he
  have hb : (("bottom" : String) == "top") = false := rfl
  have ht : (("top" : String) == "top") = true := rfl
  rw [hfl]
  cases zz with
  | false =>
    refine ⟨?_, ?_⟩
    · rw [mergedSceneries_nozz]; simp [hb]
    · rw [mergedSceneries_nozz]; simp [ht]
  | true =>
    refine ⟨?_, ?_⟩
    · rw [mergedSceneries_zz]; simp [hb]
    · rw [mergedSceneries_zz]; simp [ht]

/-- Claim C1 witness: the amended statement applied at `D = [D]`,
`L = [B]`, `zz_at_end = true`, with the disjointness hypothesis discharged
by evaluation. -/
theorem merge_modes_amended_witness :
    mergedSceneries ["D"] (filtered_live ["D"] ["B"]) "bottom" true
        = (["D"] ++ (if true then (pysorted ["B"]).filter (fun s => !(isZZ s))
                     else pysorted ["B"]))
          ++ (if true then (pysorted ["B"]).filter (fun s => isZZ s) else []) :=
  (merge_modes_amended ["D"] ["B"] true (by decide)).1

/-- Claim C3, counterexample to the literal statement: when the colliding
live entry is the very same string as a DB entry, the entry is removed from
the live list but the string still occurs in the final output, contributed
by the DB list. -/
theorem collision_value_counterexample :
    "Custom Scenery/A" ∈ (["Custom Scenery/A"] : List String)
      ∧ basename "Custom Scenery/A" ∈ dscen_base ["Custom Scenery/A"]
      ∧ "Custom Scenery/A"
          ∈ mergedSceneries ["Custom Scenery/A"]
              (filtered_live ["Custom Scenery/A"] ["Custom Scenery/A"])
              "bottom" true := by
  decide

/-- Claim C3 (amended): a scanned live entry whose base name matches a DB
base name contributes nothing to the final output — for every merge mode and
every `zz_at_end` value, the entry occurs in the merged sequence exactly as
often as in the DB list (so not at all unless the DB list itself contains
the same string). -/
theorem collision_filter_count (db raw : List String) (mode : String)
    (zz : Bool) (e : String) (_he : e ∈ raw)
    (hcol : basename e ∈ dscen_base db) :
    (mergedSceneries db (filtered_live db raw) mode zz).count e
      = db.count e := by
  have hnot : e ∉ filtered_live db raw := fun h =>
    ((mem_filtered_live db raw e).mp h).2 hcol
  have hc0 : (filtered_live db raw).count e = 0 := List.count_eq_zero.mpr hnot
  have hf : ∀ p : String → Bool,
      ((filtered_live db raw).filter p).count e = 0 := by
    intro p
    have h1 := (List.filter_sublist (p := p) (filtered_live db raw)).count_le e
    omega
  cases zz with
  | true =>
    rw [mergedSceneries_zz, List.count_append]
    cases hmode : (mode == "top") with
    | true => simp [hmode, List.count_append, hf]
    | false => simp [hmode, List.count_append, hf]
  | false =>
    rw [mergedSceneries_nozz]
    cases hmode : (mode == "top") with
    | true => simp [hmode, List.count_append, hc0]
    | false => simp [hmode, List.count_append, hc0]

/-- Claim C3 witness: the amended statement applied at the counterexample
instance — the colliding entry occurs once, exactly its DB count. -/
theorem collision_filter_count_witness :
    (mergedSceneries ["Custom Scenery/A"]
        (filtered_live ["Custom Scenery/A"] ["Custom Scenery/A"])
        "bottom" true).count "Custom Scenery/A"
      = (["Custom Scenery/A"] : List String).count "Custom Scenery/A" :=
  collision_filter_count ["Custom Scenery/A"] ["Custom Scenery/A"] "bottom"
    true "Custom Scenery/A" (by decide) (by decide)

/-- Claim C4: the concrete scenario — DB `[top/A, libs/B]`, scan
`[Custom Scenery/zzTerrain, Custom Scenery/A, Custom Scenery/New]`, bottom
mode, `zz_at_end = true` — produces exactly the order top/A, libs/B,
Custom Scenery/New, Custom Scenery/zzTerrain. -/
theorem merge_scenario_example :
    mergedSceneries ["top/A", "libs/B"]
        (filtered_live ["top/A", "libs/B"]
          ["Custom Scenery/zzTerrain", "Custom Scenery/A", "Custom Scenery/New"])
        "bottom" true
      = ["top/A", "libs/B", "Custom Scenery/New", "Custom Scenery/zzTerrain"] := by
  decide

/-- Claim C5, counterexample to the literal statement: the base name used by
the code is the final path component with the marker retained, so the marked
entry `-Foo` is compared under `-Foo` (not `Foo` as the claim says) and
survives the collision filter against a DB entry with base name `Foo`. -/
theorem base_name_counterexample :
    basename "-Foo" = "-Foo" ∧ spec_base_name "-Foo" = "Foo"
      ∧ "-Foo" ∈ filtered_live ["Foo"] ["-Foo"] := by
  decide

/-- Claim C5 (amended): the base name used in the collision comparison is
the entry's final path component with the marker retained (an entry survives
iff that unstripped base name is not a DB base name), and the zz
classification applies the two-pattern check to the same unstripped base
name, so a `-z...` base name is classified as zz. -/
theorem base_name_amended (db raw : List String) (x : String) :
    (x ∈ filtered_live db raw ↔ x ∈ raw ∧ basename x ∉ dscen_base db)
      ∧ (pyStartsWith (basename x) "-z" = true → isZZ x = true) := by
  refine ⟨mem_filtered_live db raw x, fun h => ?_⟩
  unfold isZZ
  rw [h, Bool.or_true]

/-- Claim C5 witness: the amended statement applied at `-zFoo`, whose
marker-retaining base name starts with `-z` and is therefore zz. -/
theorem base_name_amended_witness : isZZ "-zFoo" = true :=
  (base_name_amended [] [] "-zFoo").2 (by decide)

/-- Claim C10: any merge mode other than the exact string `top` (including
`Top` and `bottom` and arbitrary junk) produces the same result as bottom
mode, both for the entry order and for the generated file; no mode value is
rejected. -/
theorem merge_mode_fallthrough (db cs : List String) (zz : Bool) (m : String)
    (hm : m ≠ "top") :
    mergedSceneries db cs m zz = mergedSceneries db cs "bottom" zz
      ∧ make_scenery_ini db cs m zz = make_scenery_ini db cs "bottom" zz := by
  have hb : (m == "top") = false := by
    rw [beq_eq_false_iff_ne]
    exact hm
  have h1 : mergedSceneries db cs m zz = mergedSceneries db cs "bottom" zz := by
    simp only [mergedSceneries, hb]
    rfl
  refine ⟨h1, ?_⟩
  unfold make_scenery_ini
  rw [h1]

/-- Claim C10 witness: the capitalized mode string `Top` behaves as bottom
mode. -/
theorem merge_mode_fallthrough_witness :
    mergedSceneries ["A"] ["zB"] "Top" true
        = mergedSceneries ["A"] ["zB"] "bottom" true
      ∧ make_scenery_ini ["A"] ["zB"] "Top" true
        = make_scenery_ini ["A"] ["zB"] "bottom" true :=
  merge_mode_fallthrough ["A"] ["zB"] true "Top" (by decide)

/-- Positions in a concatenation whose suffix consists entirely of
zz-classified entries: a non-zz entry sits in the prefix, and an entry that
cannot occur in the prefix sits in the suffix, so the former is strictly
before the latter. -/
lemma get_append_strict (P Z : List String)
    (hzzall : ∀ t ∈ Z, isZZ t = true) (s : String) (hsP : s ∉ P)
    (i j : Nat) (hi : i < (P ++ Z).length) (hj : j < (P ++ Z).length)
    (hnz : isZZ ((P ++ Z).get ⟨i, hi⟩) = false)
    (hsj : (P ++ Z).get ⟨j, hj⟩ = s) : i < j := by
  simp only [List.get_eq_getElem] at hnz hsj
  have hlen : (P ++ Z).length = P.length + Z.length := List.length_append P Z
  have hjge : P.length ≤ j := by
    by_contra hcon
    push_neg at hcon
    rw [List.getElem_append_left hcon] at hsj
    exact hsP (hsj ▸ List.getElem_mem hcon)
  have hilt : i < P.length := by
    by_contra hcon
    push_neg at hcon
    rw [List.getElem_append_right hcon] at hnz
    have hb : i - P.length < Z.length := by omega
    have hmem : Z[i - P.length] ∈ Z := List.getElem_mem hb
    rw [hzzall _ hmem] at hnz
    exact Bool.noConfusion hnz
  omega

/-- Claim C2: with `zz_at_end = true`, every entry of the (collision-filtered)
live list that is zz-classified appears in the merged sequence strictly after
every entry — from either list — that is not zz-classified, for every merge
mode. -/
theorem zz_trailing (db raw : List String) (mode s : String)
    (hs : s ∈ filtered_live db raw) (hzz : isZZ s = true)
    (i j : Nat)
    (hi : i < (mergedSceneries db (filtered_live db raw) mode true).length)
    (hj : j < (mergedSceneries db (filtered_live db raw) mode true).length)
    (hnz : isZZ ((mergedSceneries db (filtered_live db raw) mode true).get
      ⟨i, hi⟩) = false)
    (hsj : (mergedSceneries db (filtered_live db raw) mode true).get
      ⟨j, hj⟩ = s) :
    i < j := by
  set cs := filtered_live db raw with hcs
  set P := (if mode == "top" then cs.filter (fun t => !(isZZ t)) ++ db
            else db ++ cs.filter (fun t => !(isZZ t))) with hP
  set Z := cs.filter (fun t => isZZ t) with hZ
  have hM : mergedSceneries db cs mode true = P ++ Z := mergedSceneries_zz db cs mode
  have hZall : ∀ t ∈ Z, isZZ t = true := fun t ht => (List.mem_filter.mp ht).2
  have h1 : s ∉ db := by
    intro hmem
    refine ((mem_filtered_live db raw s).mp ?_).2 ?_
    · rw [← hcs]; exact hs
    · simp only [dscen_base]
      exact List.mem_map.mpr ⟨s, hmem, rfl⟩
  have h2 : s ∉ cs.filter (fun t => !(isZZ t)) := by
    intro hmem
    have h3 : (!(isZZ s)) = true := (List.mem_filter.mp hmem).2
    rw [hzz] at h3
    exact Bool.noConfusion h3
  have hsP : s ∉ P := by
    rw [hP]
    cases mode == "top" <;> simp [List.mem_append, h1, h2]
  have hi2 : i < (P ++ Z).length := by rw [← hM]; exact hi
  have hj2 : j < (P ++ Z).length := by rw [← hM]; exact hj
  simp only [List.get_eq_getElem] at hnz hsj
  rw [List.getElem_of_eq hM hi] at hnz
  rw [List.getElem_of_eq hM hj] at hsj
  exact get_append_strict P Z hZall s hsP i j hi2 hj2 hnz hsj

/-- Claim C2 witness: with DB empty and scan `[zA, B]` in bottom mode, the
merged list is `[B, zA]`; the non-zz entry at position 0 is strictly before
the zz live entry at position 1. -/
theorem zz_trailing_witness : isZZ "zA" = true ∧ (0 : Nat) < 1 :=
  ⟨by decide,
   zz_trailing [] ["zA", "B"] "bottom" "zA" (by decide) (by decide) 0 1
     (by decide) (by decide) (by decide) (by decide)⟩

/-- Unfolding of `renderLine` on a non-empty string. -/
lemma renderLine_cons (c : Char) (rest : List Char) :
    renderLine ⟨c :: rest⟩
      = some ("SCENERY_" ++ (if c ≠ '-' then "PACK" else "DISABLED") ++ " "
          ++ pyReplaceBackslash (if c ≠ '-' then ⟨c :: rest⟩ else ⟨rest⟩)
          ++ "/") := rfl

/-- Unfolding of `spec_render_line` on a non-empty string. -/
lemma spec_render_line_cons (c : Char) (rest : List Char) :
    spec_render_line ⟨c :: rest⟩
      = if c = '-' then "SCENERY_DISABLED " ++ pyReplaceBackslash ⟨rest⟩ ++ "/"
        else "SCENERY_PACK " ++ pyReplaceBackslash ⟨c :: rest⟩ ++ "/" := rfl

/-- On a non-empty entry the code's rendered line is exactly the line the
spec describes. -/
lemma renderLine_eq_spec (s : String) (h : s ≠ "") :
    renderLine s = some (spec_render_line s) := by
  obtain ⟨cs⟩ := s
  match cs with
  | [] => exact absurd rfl h
  | c :: rest =>
    rw [renderLine_cons, spec_render_line_cons]
    by_cases hc : c = '-'
    · subst hc
      have e : ("SCENERY_" : String) ++ "DISABLED" ++ " " = "SCENERY_DISABLED " := rfl
      rw [if_neg (show ¬(('-' : Char) ≠ '-') by simp),
          if_neg (show ¬(('-' : Char) ≠ '-') by simp),
          if_pos (rfl : ('-' : Char) = '-'), e]
    · have e : ("SCENERY_" : String) ++ "PACK" ++ " " = "SCENERY_PACK " := rfl
      rw [if_pos hc, if_pos hc, if_neg hc, e]

/-- When every entry is non-empty, the rendering comprehension succeeds with
exactly the spec's lines. -/
lemma renderLines_eq_map (l : List String) (h : ∀ s ∈ l, s ≠ "") :
    renderLines l = some (l.map spec_render_line) := by
  induction l with
  | nil => rfl
  | cons a l ih =>
    have ha := renderLine_eq_spec a (h a (List.mem_cons_self a l))
    have hl := ih (fun s hs => h s (List.mem_cons_of_mem a hs))
    simp [renderLines, ha, hl]

/-- As soon as one entry is the empty string, the rendering comprehension
fails. -/
lemma renderLines_none_of_mem (l : List String) (h : "" ∈ l) :
    renderLines l = none := by
  induction l with
  | nil => cases h
  | cons a l ih =>
    rcases List.mem_cons.mp h with ha | hmem
    · have h0 : renderLine a = none := by rw [← ha]; rfl
      cases hrl : renderLines l <;> simp [renderLines, h0, hrl]
    · cases hra : renderLine a <;> simp [renderLines, hra, ih hmem]

/-- Claim C6: when every merged entry is non-empty, the generated file is
exactly the header followed by the spec's rendered lines joined by single
newlines: `SCENERY_PACK <path>/` for an unmarked entry, `SCENERY_DISABLED
<path>/` with the marker removed for a marked one, backslashes replaced by
slashes. -/
theorem rendering_spec (db cs : List String) (mode : String) (zz : Bool)
    (h : ∀ s ∈ mergedSceneries db cs mode zz, s ≠ "") :
    make_scenery_ini db cs mode zz
      = some (HEADER
          ++ joinNL ((mergedSceneries db cs mode zz).map spec_render_line)) := by
  unfold make_scenery_ini
  rw [renderLines_eq_map _ h]

/-- Claim C6 witness: the spec's own rendering example — a marked and an
unmarked entry — evaluated through the theorem. -/
theorem rendering_spec_witness :
    make_scenery_ini ["Custom Scenery/New"] ["-Custom Scenery/Old"] "bottom" false
      = some (HEADER
          ++ joinNL ((mergedSceneries ["Custom Scenery/New"]
              ["-Custom Scenery/Old"] "bottom" false).map spec_render_line)) :=
  rendering_spec ["Custom Scenery/New"] ["-Custom Scenery/Old"] "bottom" false
    (by decide)

/-- Claim C9: rendering inspects the first character of every entry, so
serialization is total exactly on merged sequences with no empty entry: with
all entries non-empty it succeeds, with an empty entry it fails with the
index error; an empty entry does arise from a blank category-file line
(kept, whitespace-stripped, by the line reader), and on such an input the
pipeline aborts with the index error before writing. -/
theorem serialization_empty_entry (db cs : List String) (mode : String)
    (zz : Bool) :
    ((∀ s ∈ mergedSceneries db cs mode zz, s ≠ "")
        → (make_scenery_ini db cs mode zz).isSome = true)
      ∧ ("" ∈ mergedSceneries db cs mode zz
        → make_scenery_ini db cs mode zz = none)
      ∧ stripLine " " = ""
      ∧ rebuild_scenery_ini cfg9 fs9 [] "bottom" true = .error .indexError := by
  refine ⟨fun h => ?_, fun h => ?_, by decide, by rfl⟩
  · unfold make_scenery_ini
    rw [renderLines_eq_map _ h]
    rfl
  · unfold make_scenery_ini
    rw [renderLines_none_of_mem _ h]

/-- Claim C9 witness: a merged sequence of non-empty entries renders, and
inserting an empty entry makes rendering fail. -/
theorem serialization_empty_entry_witness :
    (make_scenery_ini ["A"] [] "bottom" true).isSome = true
      ∧ make_scenery_ini ["", "A"] [] "bottom" true = none :=
  ⟨(serialization_empty_entry ["A"] [] "bottom" true).1 (by decide),
   (serialization_empty_entry ["", "A"] [] "bottom" true).2.1 (by decide)⟩

/-- When every configured category file is present, the category loop
returns the concatenation, in list order, of each category's contribution. -/
lemma readCategories_ok (cfg : String → Option String)
    (fs : String → Option (List String)) (ts : List String)
    (h : ∀ t ∈ ts, Option.all (fun p => (fs p).isSome) (cfg t) = true) :
    readCategories cfg fs ts = .ok ((ts.map (cat_entries cfg fs)).flatten) := by
  induction ts with
  | nil => rfl
  | cons t ts ih =>
    have ht := h t (List.mem_cons_self t ts)
    have hts := fun u hu => h u (List.mem_cons_of_mem t hu)
    cases hc : cfg t with
    | none =>
      simp [readCategories, hc, ih hts, cat_entries]
    | some p =>
      rw [hc] at ht
      have hps : (fs p).isSome = true := by simpa [Option.all] using ht
      obtain ⟨lines, hl⟩ := Option.isSome_iff_exists.mp hps
      simp [readCategories, hc, read_scenery_list, hl, ih hts, cat_entries]

/-- Claim C7: with every configured category file present, the DB list is
the per-category entry lists concatenated in the fixed order top,
custom_airports, default_airports, libraries, meshes (the `base` option);
an unconfigured category contributes the empty list and raises no error,
and each file's line order is kept inside its block. -/
theorem db_concat_fixed_order (cfg : String → Option String)
    (fs : String → Option (List String))
    (h : ∀ t ∈ SCENERY_TYPES, Option.all (fun p => (fs p).isSome) (cfg t) = true) :
    read_scenery_db cfg fs
      = .ok (cat_entries cfg fs OPT_SCENERY_TOP
          ++ cat_entries cfg fs OPT_SCENERY_CUSTOM_AIRPORTS
          ++ cat_entries cfg fs OPT_SCENERY_DEFAULT_AIRPORTS
          ++ cat_entries cfg fs OPT_SCENERY_LIBS
          ++ cat_entries cfg fs OPT_SCENERY_MESHES) := by
  rw [read_scenery_db, readCategories_ok cfg fs SCENERY_TYPES h]
  simp [SCENERY_TYPES, List.append_assoc]

/-- Claim C7 witness: a configuration with the top and libraries categories
configured and present, and the other three unconfigured. -/
theorem db_concat_fixed_order_witness :
    read_scenery_db cfg7 fs7
      = .ok (cat_entries cfg7 fs7 OPT_SCENERY_TOP
          ++ cat_entries cfg7 fs7 OPT_SCENERY_CUSTOM_AIRPORTS
          ++ cat_entries cfg7 fs7 OPT_SCENERY_DEFAULT_AIRPORTS
          ++ cat_entries cfg7 fs7 OPT_SCENERY_LIBS
          ++ cat_entries cfg7 fs7 OPT_SCENERY_MESHES) :=
  db_concat_fixed_order cfg7 fs7 (by decide)

/-- If some category in the list is configured with an absent file, the
category loop fails with the file-not-found error. -/
lemma readCategories_error (cfg : String → Option String)
    (fs : String → Option (List String)) (ts : List String) (t p : String)
    (ht : t ∈ ts) (hd : cfg t = some p) (hm : fs p = none) :
    readCategories cfg fs ts = .error .fileNotFound := by
  induction ts with
  | nil => cases ht
  | cons u ts ih =>
    rcases List.mem_cons.mp ht with hu | htl
    · rw [hu] at hd
      simp [readCategories, hd, read_scenery_list, hm]
    · cases hc : cfg u with
      | none => simp [readCategories, hc, ih htl]
      | some q =>
        cases hq : fs q with
        | none => simp [readCategories, hc, read_scenery_list, hq]
        | some lines =>
          simp [readCategories, hc, read_scenery_list, hq, ih htl]

/-- Claim C8: when a configured category file is absent, reading the DB
fails with the file-not-found error, and the whole rebuild fails with that
error — the output text is never produced. -/
theorem missing_category_file_error (cfg : String → Option String)
    (fs : String → Option (List String)) (t p : String)
    (ht : t ∈ SCENERY_TYPES) (hd : cfg t = some p) (hm : fs p = none)
    (cscen : List String) (mode : String) (zz : Bool) :
    read_scenery_db cfg fs = .error .fileNotFound
      ∧ rebuild_scenery_ini cfg fs cscen mode zz = .error .fileNotFound := by
  have h1 : read_scenery_db cfg fs = .error .fileNotFound :=
    readCategories_error cfg fs SCENERY_TYPES t p ht hd hm
  exact ⟨h1, by simp [rebuild_scenery_ini, h1]⟩

/-- Claim C8 witness: the libraries category is configured with a file the
filesystem does not contain; the DB read and the rebuild both fail. -/
theorem missing_category_file_error_witness :
    read_scenery_db cfg8 fs8 = .error .fileNotFound
      ∧ rebuild_scenery_ini cfg8 fs8 [] "bottom" true
        = .error .fileNotFound :=
  missing_category_file_error cfg8 fs8 OPT_SCENERY_LIBS "db/libs.txt"
    (by decide) (by rfl) (by rfl) [] "bottom" true

/-- The character-list order is total up to equality. -/
lemma charListLt_total (a b : List Char) :
    charListLt a b = true ∨ a = b ∨ charListLt b a = true := by
  induction a generalizing b with
  | nil =>
    cases b with
    | nil => exact Or.inr (Or.inl rfl)
    | cons c cs => exact Or.inl rfl
  | cons x xs ih =>
    cases b with
    | nil => exact Or.inr (Or.inr rfl)
    | cons y ys =>
      rcases lt_trichotomy x y with h | h | h
      · left; simp [charListLt, h]
      · subst h
        rcases ih ys with h2 | h2 | h2
        · left; simp [charListLt, h2]
        · right; left; rw [h2]
        · right; right; simp [charListLt, h2]
      · right; right; simp [charListLt, h]

/-- The embedded Python string order is total. -/
lemma pyLe_total (x y : String) : pyLe x y = true ∨ pyLe y x = true := by
  rcases charListLt_total x.data y.data with h | h | h
  · left; simp [pyLe, h]
  · have hxy : x = y := by
      cases x
      cases y
      exact congrArg String.mk (by simpa using h)
    left; simp [pyLe, hxy]
  · right; simp [pyLe, h]

/-- Inserting into a list whose adjacent pairs are ordered keeps adjacent
pairs ordered. -/
lemma chain_insertSorted (x : String) (l : List String)
    (h : l.Chain' (fun a b => pyLe a b = true)) :
    (insertSorted x l).Chain' (fun a b => pyLe a b = true) := by
  induction l with
  | nil => simp [insertSorted]
  | cons y ys ih =>
    unfold insertSorted
    by_cases hxy : pyLe x y = true
    · rw [if_pos hxy]
      exact List.chain'_cons.mpr ⟨hxy, h⟩
    · rw [if_neg hxy]
      have hyx : pyLe y x = true := (pyLe_total x y).resolve_left hxy
      cases ys with
      | nil =>
        simp only [insertSorted]
        exact List.chain'_cons.mpr ⟨hyx, List.chain'_singleton x⟩
      | cons z zs =>
        have hyz : pyLe y z = true := (List.chain'_cons.mp h).1
        have hch := (List.chain'_cons.mp h).2
        have ih2 := ih hch
        by_cases hxz : pyLe x z = true
        · rw [show insertSorted x (z :: zs) = x :: z :: zs from by
            simp [insertSorted, hxz]]
          exact List.chain'_cons.mpr ⟨hyx, List.chain'_cons.mpr ⟨hxz, hch⟩⟩
        · rw [show insertSorted x (z :: zs) = z :: insertSorted x zs from by
            simp [insertSorted, hxz]]
          rw [show insertSorted x (z :: zs) = z :: insertSorted x zs from by
            simp [insertSorted, hxz]] at ih2
          exact List.chain'_cons.mpr ⟨hyz, ih2⟩

/-- Certification of the `sorted` embedding: `pysorted` produces a list
whose adjacent pairs are in ascending Python string order (and it permutes
its input, by `pysorted_perm`), which pins down CPython's `sorted` exactly
since equal string keys are identical values. -/
lemma pysorted_chain (l : List String) :
    (pysorted l).Chain' (fun a b => pyLe a b = true) := by
  induction l with
  | nil => simp [pysorted]
  | cons a l ih => exact chain_insertSorted a (pysorted l) ih
